import Mathlib

/-!
A Lean model of the core of the `compiler-io-eval` repository: Python values as
they flow through the evaluation pipeline, the example codec
(`examples.py`), the random input generator and evaluator (`evaluation.py`,
`randomiser.py`) and the foreign-function runner (`runner.py`).  Each
definition is a shallow embedding of the correspondingly named Python
function; theorems at the end settle the specification claims against these
definitions.
-/

namespace CIOEval

/-- A Python float as used by this code base: either NaN or a finite value,
modelled as an exact rational.  (IEEE rounding and infinities are not
exercised by any property proved here.) -/
inductive PyFloat where
  | nan : PyFloat
  | fin : ℚ → PyFloat
deriving DecidableEq, Repr

/-- A Python value of the shapes the repository manipulates
(`helper_types.AnyValue`): int/float/bool scalars, strings, lists, `None`. -/
inductive PyVal where
  | vint : ℤ → PyVal
  | vfloat : PyFloat → PyVal
  | vbool : Bool → PyVal
  | vstr : String → PyVal
  | vlist : List PyVal → PyVal
  | vnone : PyVal
deriving Repr

/-- Numeric view of a Python value: Python treats `bool` and `int` as numbers
(coerced for `==`, accepted by `math.isnan`); strings, lists and `None` are
not numbers. -/
def pyNum : PyVal → Option PyFloat
  | .vint n => some (.fin (n : ℚ))
  | .vbool b => some (.fin (if b then 1 else 0))
  | .vfloat f => some f
  | _ => none

/-- Python `==` on the values above.  Numbers compare by numeric value across
int/bool/float (`True == 1`, `1 == 1.0`); `NaN == x` is always `False`;
mixed non-numeric kinds compare unequal; lists compare element-wise. -/
def pyEq : PyVal → PyVal → Bool
  | .vstr a, .vstr b => a == b
  | .vnone, .vnone => true
  | .vlist a, .vlist b => go a b
  | a, b =>
    match pyNum a, pyNum b with
    | some (.fin x), some (.fin y) => x == y
    | _, _ => false
where
  go : List PyVal → List PyVal → Bool
  | [], [] => true
  | x :: xs, y :: ys => pyEq x y && go xs ys
  | _, _ => false

/-- The embedded `math.isnan` on a Python value: `some b` when the argument is numeric,
`none` when it raises `TypeError` (strings, lists, `None`). -/
def pyIsNaN : PyVal → Option Bool
  | v =>
    match pyNum v with
    | some .nan => some true
    | some (.fin _) => some false
    | none => none

/-- The per-value comparison `check_value` nested in
`Evaluator.check_example` (src/evaluation.py lines 219-226): first Python
`==`; if that is false, `math.isnan(expected) == math.isnan(actual)`, with a
`TypeError` from either `isnan` call caught and turned into `False`. -/
def check_value (expected_value actual_value : PyVal) : Bool :=
  if pyEq expected_value actual_value then true
  else
    match pyIsNaN expected_value, pyIsNaN actual_value with
    | some e, some a => e == a
    | _, _ => false

/-- A C type as in `reference_parser.CType`: a primitive name and a pointer
level.  `CType.parse` rejects levels above 1 and never produces a negative
level, so the level is a natural number. -/
structure CType where
  contents : String
  pointer_level : Nat
deriving DecidableEq, Repr

/-- Outcome of one of the codec's value parsers: a parsed value with the
remaining input, `fail` for a Python `return None`, or `exn` for an
exception escaping the parser. -/
inductive PRes (α : Type) where
  | ok : α → List Char → PRes α
  | fail : PRes α
  | exn : PRes α
deriving Repr

/-- Python's regex class `\s` (the ASCII whitespace characters). -/
def isWS (c : Char) : Bool :=
  c = ' ' || c = '\t' || c = '\n' || c = '\r' || c = '\x0b' || c = '\x0c'

/-- Drop the `\s*` prefix every value parser's regex starts with. -/
def dropWS : List Char → List Char
  | [] => []
  | c :: cs => if isWS c then dropWS cs else c :: cs

def isDigitCh (c : Char) : Bool := '0' ≤ c && c ≤ '9'

/-- Split off the maximal leading digit run (`\d*`). -/
def takeDigits : List Char → List Char × List Char
  | [] => ([], [])
  | c :: cs =>
    if isDigitCh c then
      let (ds, rest) := takeDigits cs
      (c :: ds, rest)
    else ([], c :: cs)

/-- Numeric value of a digit run. -/
def digitsToNat : List Char → Nat :=
  List.foldl (fun acc c => acc * 10 + (c.toNat - '0'.toNat)) 0

/-- The embedded `examples.parse_int`: regex `\s*(-?\d+)`, producing `int(m[1])`; no match
is `return None`. -/
def parse_int (s : List Char) : PRes PyVal :=
  match dropWS s with
  | '-' :: rest =>
    let (ds, r) := takeDigits rest
    if ds.isEmpty then .fail else .ok (.vint (-(digitsToNat ds : ℤ))) r
  | t =>
    let (ds, r) := takeDigits t
    if ds.isEmpty then .fail else .ok (.vint (digitsToNat ds : ℤ)) r

/-- Value of the decimal literal `intPart.fracDigits` as a rational
(`float(m[1])`, modelled exactly). -/
def decimalVal (neg : Bool) (intPart fracPart : List Char) : ℚ :=
  let mag : ℚ := (digitsToNat intPart : ℚ) +
    (digitsToNat fracPart : ℚ) / ((10 : ℚ) ^ fracPart.length)
  if neg then -mag else mag

/-- The embedded `examples.parse_real`: regex `\s*(-?\d+(?:\.\d+)?)` then `float(m[1])`.
On no match the source executes `raise None`, which raises `TypeError`
("exceptions must derive from BaseException") — hence `exn`, not `fail`. -/
def parse_real (s : List Char) : PRes PyVal :=
  let core : Bool → List Char → PRes PyVal := fun neg t =>
    let (ds, r) := takeDigits t
    if ds.isEmpty then .exn
    else
      match r with
      | '.' :: r2 =>
        let (fs, r3) := takeDigits r2
        if fs.isEmpty then .ok (.vfloat (.fin (decimalVal neg ds []))) r
        else .ok (.vfloat (.fin (decimalVal neg ds fs))) r3
      | _ => .ok (.vfloat (.fin (decimalVal neg ds []))) r
  match dropWS s with
  | '-' :: rest => core true rest
  | t => core false t

/-- The embedded `examples.parse_char`: regex `\s*'([^\\']|\\.)'`; the captured group is
returned as a Python string, keeping a backslash escape verbatim. -/
def parse_char (s : List Char) : PRes PyVal :=
  match dropWS s with
  | '\'' :: '\\' :: c :: '\'' :: r =>
    if c = '\n' then .fail else .ok (.vstr ⟨['\\', c]⟩) r
  | '\'' :: c :: '\'' :: r =>
    if c = '\\' || c = '\'' then .fail else .ok (.vstr ⟨[c]⟩) r
  | _ => .fail

/-- The embedded `examples.parse_bool`: regex `\s*(True|False)`. -/
def parse_bool (s : List Char) : PRes PyVal :=
  match dropWS s with
  | 'T' :: 'r' :: 'u' :: 'e' :: r => .ok (.vbool true) r
  | 'F' :: 'a' :: 'l' :: 's' :: 'e' :: r => .ok (.vbool false) r
  | _ => .fail

/-- Body scan of `parse_string`'s regex `"((?:[^\\"]|\\.)*)"`: the
alternatives are disjoint on their first character, so the greedy star is
this deterministic scan.  Escapes stay in the captured group verbatim. -/
def stringBody : List Char → Option (List Char × List Char)
  | [] => none
  | '"' :: r => some ([], r)
  | '\\' :: c :: r =>
    if c = '\n' then none
    else (stringBody r).map (fun (g, rest) => ('\\' :: c :: g, rest))
  | '\\' :: [] => none
  | c :: r => (stringBody r).map (fun (g, rest) => (c :: g, rest))

/-- The embedded `examples.parse_string`: regex `\s*"((?:[^\\"]|\\.)*)"`. -/
def parse_string (s : List Char) : PRes PyVal :=
  match dropWS s with
  | '"' :: t =>
    match stringBody t with
    | some (g, r) => .ok (.vstr ⟨g⟩) r
    | none => .fail
  | _ => .fail

/-- The embedded `examples.parse_missing`: regex `\s*_`, the `void` sentinel. -/
def parse_missing (s : List Char) : PRes PyVal :=
  match dropWS s with
  | '_' :: r => .ok .vnone r
  | _ => .fail

/-- Skip `\s*,` when present (the optional separator matching inside
`parse_list` and `parse_group`). -/
def skipComma (s : List Char) : Option (List Char) :=
  match dropWS s with
  | ',' :: r => some r
  | _ => none

/-- Loop body of `examples.parse_list`: keep parsing elements while the
element parser succeeds and a comma follows.  The source's `while` loop is
modelled with fuel; every element parser of this codec consumes at least one
character on success, so fuel `s.length + 1` never runs out. -/
def parseListLoop (elem : List Char → PRes PyVal) :
    Nat → List Char → List PyVal → PRes PyVal
  | 0, _, _ => .fail
  | fuel + 1, rem, acc =>
    match elem rem with
    | .exn => .exn
    | .fail =>
      match dropWS rem with
      | ']' :: r => .ok (.vlist acc.reverse) r
      | _ => .fail
    | .ok v rem2 =>
      match skipComma rem2 with
      | some rem3 => parseListLoop elem fuel rem3 (v :: acc)
      | none =>
        match dropWS rem2 with
        | ']' :: r => .ok (.vlist (v :: acc).reverse) r
        | _ => .fail

/-- The embedded `examples.parse_list`: `\s*\[`, then elements separated by `\s*,`, then
`\s*]`. -/
def parse_list (elem : List Char → PRes PyVal) (s : List Char) : PRes PyVal :=
  match dropWS s with
  | '[' :: t => parseListLoop elem (t.length + 1) t []
  | _ => .fail

/-- The embedded `examples.parser_for`, with the `CType` split into its fields so the
recursion is on the pointer level: `void` (at any level) parses as the
missing value, `char*` as a string, other pointers as lists of their element
parser, and scalars by primitive; an unsupported primitive raises
`UnsupportedTypeError` (`none`). -/
def parser_for (contents : String) : Nat → Option (List Char → PRes PyVal)
  | 0 =>
    if contents = "void" then some parse_missing
    else if contents = "int" then some parse_int
    else if contents = "float" ∨ contents = "double" then some parse_real
    else if contents = "char" then some parse_char
    else if contents = "bool" then some parse_bool
    else none
  | Nat.succ l2 =>
    if contents = "void" then some parse_missing
    else if contents = "char" ∧ l2 = 0 then some parse_string
    else (parser_for contents l2).map parse_list

/-- The embedded `parser_for` on a `CType`, as the source's signature has it. -/
def parser_forT (t : CType) : Option (List Char → PRes PyVal) :=
  parser_for t.contents t.pointer_level

/-- The association list standing for a Python `dict` built by inserting the
keys in order (`ParameterMapping`): all mappings in this development bind
distinct names, in construction order. -/
abbrev Bindings := List (String × PyVal)

/-- Left-to-right body of `parse_group` in `ExampleInstance.parse`: run each
named parser in order, skipping an optional `\s*,` after each value. -/
def parseGroupVals (grp : List (String × (List Char → PRes PyVal))) :
    List Char → Bindings → PRes Bindings
  | s, acc =>
    match grp with
    | [] =>
      match dropWS s with
      | ')' :: r => .ok acc.reverse r
      | _ => .fail
    | (name, p) :: rest =>
      match p s with
      | .exn => .exn
      | .fail => .fail
      | .ok v s2 =>
        let s3 := (skipComma s2).getD s2
        parseGroupVals rest s3 ((name, v) :: acc)

/-- Drop everything up to and including the first `(`; Python's
`s.index("(")` raises `ValueError` when there is none. -/
def dropToParen : List Char → Option (List Char)
  | [] => none
  | '(' :: r => some r
  | _ :: r => dropToParen r

/-- The embedded `parse_group` inside `ExampleInstance.parse`: position after the first
`(`, parse each group member, then require `\s*\)`.  A missing `(` is the
uncaught `ValueError` from `s.index`. -/
def parse_group (grp : List (String × (List Char → PRes PyVal)))
    (s : List Char) : PRes Bindings :=
  match dropToParen s with
  | none => .exn
  | some t => parseGroupVals grp t []

/-- One realised trial (`examples.ExampleInstance`): generated inputs, the
observed return value, and the observed output-parameter values. -/
structure ExampleInstance where
  inputs : Bindings
  value : PyVal
  outputs : Bindings
deriving Repr

/-- The embedded `ExampleInstance.parse`: input group, return value, output group; any
trailing text is ignored. -/
def exampleParse (inputs : List (String × (List Char → PRes PyVal)))
    (value : List Char → PRes PyVal)
    (outputs : List (String × (List Char → PRes PyVal)))
    (s : List Char) : PRes ExampleInstance :=
  match parse_group inputs s with
  | .exn => .exn
  | .fail => .fail
  | .ok input_vals s2 =>
    match value s2 with
    | .exn => .exn
    | .fail => .fail
    | .ok ret_val s3 =>
      match parse_group outputs s3 with
      | .exn => .exn
      | .fail => .fail
      | .ok output_vals _ => .ok ⟨input_vals, ret_val, output_vals⟩ []

/-- Result of parsing a whole batch: the collected instances, or an
exception escaping `examples.parse_examples`. -/
inductive BRes (α : Type) where
  | ok : α → BRes α
  | exn : BRes α
deriving Repr

/-- The embedded `examples.parse_examples`: parse every line, keep the instances that
parse (`fail` lines are dropped silently), and let exceptions propagate. -/
def parse_examples (inputs : List (String × (List Char → PRes PyVal)))
    (value : List Char → PRes PyVal)
    (outputs : List (String × (List Char → PRes PyVal))) :
    List (List Char) → BRes (List ExampleInstance)
  | [] => .ok []
  | line :: rest =>
    match exampleParse inputs value outputs line with
    | .exn => .exn
    | .fail => parse_examples inputs value outputs rest
    | .ok v _ =>
      match parse_examples inputs value outputs rest with
      | .ok vs => .ok (v :: vs)
      | .exn => .exn

/-- Decimal digits of a natural number (used for Python `str` of numbers). -/
def natDigits (n : Nat) : String := toString n

/-- Python `str()` of a finite float.  An integral value prints with a
trailing `.0`; otherwise the shortest terminating decimal expansion is
printed (found by scaling by powers of ten).  Floats needing scientific
notation are not decimally representable within 40 digits; the fallback
arm for them is never exercised by any theorem below. -/
def pyStrFloat : PyFloat → String
  | .nan => "nan"
  | .fin q =>
    let sign := if q < 0 then "-" else ""
    let a := |q|
    if a.den = 1 then sign ++ natDigits a.num.toNat ++ ".0"
    else
      match (List.range 40).find? (fun k => (a * 10 ^ (k + 1)).den = 1) with
      | some k =>
        let scaled := (a * 10 ^ (k + 1)).num.toNat
        let ip := scaled / 10 ^ (k + 1)
        let fp := scaled % 10 ^ (k + 1)
        let fpStr := natDigits fp
        let pad := String.mk (List.replicate (k + 1 - fpStr.length) '0')
        sign ++ natDigits ip ++ "." ++ pad ++ fpStr
      | none => sign ++ "<nondecimal float>"

/-- Python `repr()` of a value, as `str()` of a list applies it to the
elements: like `str()` except strings gain single quotes. -/
def pyReprAtom (v : PyVal) : String :=
  match v with
  | .vint n => toString n
  | .vfloat f => pyStrFloat f
  | .vbool b => if b then "True" else "False"
  | .vstr s => "'" ++ s ++ "'"
  | .vnone => "None"
  | .vlist _ => "<nested list>"

/-- Python `str()` of a value.  Nested lists inside lists do not occur
(multi-level pointers are rejected), so one level of element `repr` is
enough. -/
def pyStr : PyVal → String
  | .vint n => toString n
  | .vfloat f => pyStrFloat f
  | .vbool b => if b then "True" else "False"
  | .vstr s => s
  | .vnone => "None"
  | .vlist l => "[" ++ String.intercalate ", " (l.map pyReprAtom) ++ "]"

/-- The embedded `examples.form_value`: char arrays are quoted, a void return is the `_`
sentinel, everything else is Python `str()` of the value. -/
def form_value (val : PyVal) (c_type : CType) : String :=
  if c_type = ⟨"char", 1⟩ then "\"" ++ pyStr val ++ "\""
  else if c_type = ⟨"void", 0⟩ then "_"
  else pyStr val

/-- Look a name up in a bindings list (Python `dict` subscript; every use
below is on a dict that binds the name). -/
def lookupB (name : String) (b : Bindings) : Option PyVal :=
  (b.find? (fun p => p.fst = name)).map Prod.snd

/-- The embedded `ExampleInstance.form`: format the inputs, return value and outputs into
`({inputs}) {value} ({outputs})` using the declared types. -/
def exampleForm (e : ExampleInstance) (inputs : List (String × CType))
    (value : CType) (outputs : List (String × CType)) : String :=
  let inp_vals := inputs.map
    (fun p => form_value ((lookupB p.fst e.inputs).getD .vnone) p.snd)
  let outp_vals := outputs.map
    (fun p => form_value ((lookupB p.fst e.outputs).getD .vnone) p.snd)
  "(" ++ String.intercalate ", " inp_vals ++ ") " ++
    form_value e.value value ++
    " (" ++ String.intercalate ", " outp_vals ++ ")"

/-- The instance lines of `examples.form_examples` (the leading signature
line, `form_ref`, is consumed by `parse_sig`, which selects exactly the
`parser_for` parsers of the declared types; the theorems below apply those
parsers directly). -/
def form_example_lines (inputs : List (String × CType)) (value : CType)
    (outputs : List (String × CType)) (examples : List ExampleInstance) :
    List String :=
  examples.map (fun e => exampleForm e inputs value outputs)

/-- The Python exceptions this code base can raise.  `fuelOut` is an
artifact of modelling the `while` loop of `Generator.generate` with fuel;
the fuel-adequacy lemma below shows it never occurs at the fuel the model
supplies. -/
inductive PyExn where
  | constraintError
  | functionRunError
  | unsupportedTypeError
  | assertionError
  | valueError
  | typeError
  | nameError
  | keyError
  | attributeError
  | unicodeEncodeError
  | emptyError
  | fuelOut
deriving DecidableEq, Repr

/-- State of the `random` module's global generator: a raw stream of draws
and a position in it. -/
structure RngState where
  stream : Nat → Nat
  pos : Nat

/-- The ambient Python runtime state the generator touches: the global
`random` state, plus the operating-system entropy source `random.seed(None)`
reads — `entropy k` is the stream installed by the k-th unseeded reseed. -/
structure PyEnv where
  rng : RngState
  entropy : Nat → Nat → Nat
  entUsed : Nat

/-- Result of a stateful computation: a value or an uncaught exception,
either way with the runtime state it left behind. -/
inductive MRes (α : Type) where
  | ok : α → PyEnv → MRes α
  | exn : PyExn → PyEnv → MRes α

/-- Stateful Python computations over the ambient runtime state. -/
def PyM (α : Type) : Type := PyEnv → MRes α

def PyM.bind (m : PyM α) (f : α → PyM β) : PyM β := fun env =>
  match m env with
  | .ok a e => f a e
  | .exn x e => .exn x e

instance : Monad PyM where
  pure a := fun env => .ok a env
  bind := PyM.bind

/-- Raise an exception. -/
def throwExn (x : PyExn) : PyM α := fun env => .exn x env

/-- Run a pure, possibly-raising computation in the runtime: its exception,
if any, propagates. -/
def liftExcept : Except PyExn α → PyM α
  | .ok a => pure a
  | .error x => throwExn x

/-- A lookup or conversion that raises `x` when it has no result. -/
def liftOpt (o : Option α) (x : PyExn) : PyM α :=
  match o with
  | some a => pure a
  | none => throwExn x

/-- Take the next raw draw from the global `random` state. -/
def rngDraw : PyM Nat := fun env =>
  .ok (env.rng.stream env.rng.pos)
    { env with rng := { env.rng with pos := env.rng.pos + 1 } }

/-- A stand-in for the Mersenne-Twister stream `random.seed(n)` installs.
The theorems below depend only on its determinism, never on its values. -/
def mtStream (seed : Nat) : Nat → Nat := fun i => seed + i

/-- The embedded `random.seed`: a concrete seed deterministically resets the global
stream; `seed(None)` installs a fresh stream from operating-system
entropy. -/
def doSeed : Option Nat → PyM Unit
  | some n => fun env => .ok () { env with rng := ⟨mtStream n, 0⟩ }
  | none => fun env =>
    .ok () { env with rng := ⟨env.entropy env.entUsed, 0⟩,
                      entUsed := env.entUsed + 1 }

/-- The embedded `Randomiser.__init__(seed)` is exactly `random.seed(seed)` on the global
generator. -/
def randomiserInit (seed : Option Nat) : PyM Unit := doSeed seed

/-- The embedded `Randomiser.random_int`: defaults `(0, 10)`, `ConstraintError` on an
empty range, otherwise `random.randint(min, max)` — uniform on the
*inclusive* range `[min, max]`, modelled as `min + draw % (max - min + 1)`. -/
def random_int (min_val max_val : Option ℤ) : PyM ℤ :=
  if min_val.getD 0 > max_val.getD 10 then throwExn .constraintError
  else
    rngDraw >>= fun d =>
      pure (min_val.getD 0 +
        (d : ℤ) % (max_val.getD 10 - min_val.getD 0 + 1))

/-- The embedded `random.random()`: a value in `[0,1)` with 53 bits of precision. -/
def randomUnit : PyM ℚ :=
  rngDraw >>= fun d => pure (((d % 2 ^ 53 : ℕ) : ℚ) / (2 ^ 53 : ℚ))

/-- The embedded `Randomiser.random_float`: defaults `(0, 10)`, `ConstraintError` on an
empty range, else `random.random() * (max - min) + min`. -/
def random_float (min_val max_val : Option ℚ) : PyM ℚ :=
  if min_val.getD 0 > max_val.getD 10 then throwExn .constraintError
  else
    randomUnit >>= fun u =>
      pure (u * (max_val.getD 10 - min_val.getD 0) + min_val.getD 0)

/-- The embedded `Randomiser.random_double`: same defaults and check, then delegates to
`random_float` with both bounds filled in. -/
def random_double (min_val max_val : Option ℚ) : PyM ℚ :=
  if min_val.getD 0 > max_val.getD 10 then throwExn .constraintError
  else random_float (some (min_val.getD 0)) (some (max_val.getD 10))

def ascii_letters : List Char :=
  "abcdefghijklmnopqrstuvwxyzABCDEFGHIJKLMNOPQRSTUVWXYZ".toList

/-- The default alphabet `" " + string.ascii_letters`. -/
def defaultCharAlphabet : List Char := ' ' :: ascii_letters

/-- The embedded `Randomiser.random_char`: `ConstraintError` on an empty alphabet, else
`random.choice(alphabet)`, modelled as indexing by the draw modulo the
alphabet size. -/
def random_char (alphabet : Option (List Char)) : PyM Char :=
  if h : (alphabet.getD defaultCharAlphabet).length < 1 then
    throwExn .constraintError
  else
    rngDraw >>= fun d =>
      pure ((alphabet.getD defaultCharAlphabet).get
        ⟨d % (alphabet.getD defaultCharAlphabet).length,
          Nat.mod_lt d (by omega)⟩)

/-- The embedded `Randomiser.random_bool`: `random.choice([True, False])`. -/
def random_bool : PyM Bool :=
  rngDraw >>= fun d => pure (d % 2 = 0)

/-- Run a generator thunk `length` times (the comprehension in
`Randomiser.random_array`). -/
def mreplicate (n : Nat) (g : PyM α) : PyM (List α) :=
  match n with
  | 0 => pure []
  | k + 1 => g >>= fun x => mreplicate k g >>= fun xs => pure (x :: xs)

/-- The embedded `Randomiser.random_array`: `assert length >= 0`, then `length`
independent draws of the element generator. -/
def random_array (length : ℤ) (g : PyM α) : PyM (List α) :=
  if length < 0 then throwExn .assertionError
  else mreplicate length.toNat g

/-- The embedded `reference_parser.ParamSize` and its subclasses.  The `expr` of an
expression size stands for `eval(expr, values)`, abstracted as a total
integer-valued function of the bindings. -/
inductive ParamSize where
  | constSize (arr : String) (size : ℤ)
  | varSize (arr v : String)
  | exprSize (arr : String) (init : ℤ) (expr : Bindings → ℤ)
  | simpleExprSize (arr : String) (expr : Bindings → ℤ)

/-- The embedded `ParamSize.evaluate(values, initial)`: `VarSize` asserts its variable is
bound and reads it (a non-integer binding would fail at its use sites, the
`typeError` arm); `ConstSize` is its constant; `ExprSize` is `init` for the
initial size and the expression otherwise; `SimpleExprSize` is always the
expression. -/
def ParamSize.evaluate : ParamSize → Bindings → Bool → Except PyExn ℤ
  | .varSize _ v, values, _ =>
    match lookupB v values with
    | some (.vint n) => .ok n
    | some _ => .error .typeError
    | none => .error .assertionError
  | .constSize _ s, _, _ => .ok s
  | .exprSize _ init expr, values, initial =>
    if initial then .ok init else .ok (expr values)
  | .simpleExprSize _ expr, values, _ => .ok (expr values)

/-- The comparison operators `ParamConstraint` admits. -/
inductive COp where
  | lt | le | gt | ge | ceq | cne
deriving DecidableEq, Repr

/-- The embedded `reference_parser.ParamConstraint{var, op, val}`: the source keeps `val`
as the literal's text and evaluates it inside `eval`; the claims only
exercise integer literals, modelled by their value. -/
structure ParamConstraint where
  var : String
  op : COp
  val : ℤ
deriving Repr

/-- Python comparison of a bound value against an integer literal as
`eval(f"{var} {op} {val}")` performs it: numbers compare numerically (all
order comparisons against NaN are false, `NaN != k` is true); non-numbers
support only `==` (false) and `!=` (true), and raise `TypeError` on order
comparisons. -/
def pyCompareInt (op : COp) (v : PyVal) (k : ℤ) : Option Bool :=
  match pyNum v with
  | some (.fin q) =>
    some (match op with
      | .lt => decide (q < (k : ℚ))
      | .le => decide (q ≤ (k : ℚ))
      | .gt => decide (q > (k : ℚ))
      | .ge => decide (q ≥ (k : ℚ))
      | .ceq => decide (q = (k : ℚ))
      | .cne => decide (q ≠ (k : ℚ)))
  | some .nan => some (op = .cne)
  | none =>
    match op with
    | .ceq => some false
    | .cne => some true
    | _ => none

/-- The embedded `ParamConstraint.satisfied(inputs)`: `eval` of the comparison with the
inputs as the namespace; an unbound variable is a `NameError`. -/
def ParamConstraint.satisfied (c : ParamConstraint) (inputs : Bindings) :
    Except PyExn Bool :=
  match lookupB c.var inputs with
  | none => .error .nameError
  | some v =>
    match pyCompareInt c.op v c.val with
    | some b => .ok b
    | none => .error .typeError

/-- The embedded `reference_parser.GlobalContstraint`: its predicate string stands for
`eval(predicate, inputs)`, abstracted as a boolean function of the
bindings. -/
structure GlobalConstraint where
  predicate : Bindings → Bool

/-- The embedded `runner.Parameter`: the statically known data (the mutable foreign `ref`
is threaded explicitly through `run` below). -/
structure ParameterL where
  name : String
  type : CType
  is_output : Bool
  constraints : List ParamConstraint
  size : Option ParamSize

/-- The embedded `Parameter.is_array`. -/
def ParameterL.is_array (p : ParameterL) : Bool := p.type.pointer_level = 1

/-- The primitives `Parameter.primitive` supports. -/
def primitiveOk (prim : String) : Bool :=
  prim = "int" || prim = "float" || prim = "double" || prim = "char" ||
    prim = "bool"

/-- A foreign (ctypes) value, as far as the claims observe it: scalars,
fixed-length arrays, output string buffers with their capacity
(`create_string_buffer(value, length + 1)`), and input-only string
pointers. -/
inductive Foreign where
  | scalar (v : PyVal)
  | farr (elems : List PyVal) (len : ℤ)
  | strBuf (content : String) (capacity : ℤ)
  | strPtr (content : String)
deriving Repr

/-- The embedded `str.encode("ascii")`: fails with `UnicodeEncodeError` on a non-ASCII
character; calling `.encode` on a non-string is an `AttributeError`. -/
def encodeAscii : PyVal → Except PyExn PyVal
  | .vstr s =>
    if s.toList.all (fun c => c.toNat < 128) then .ok (.vstr s)
    else .error .unicodeEncodeError
  | _ => .error .attributeError

/-- The embedded `Parameter.pack(value, length)`: non-void only; char payloads are
ASCII-encoded; scalars become foreign scalars; arrays require a length and
become either a string buffer of capacity `length + 1` (output strings), a
plain string pointer (input strings), or a fixed-length foreign array;
pointer levels above 1 are unsupported (the source also guards a negative
level, which cannot arise). -/
def ParameterL.pack (p : ParameterL) (value : PyVal) (length : Option ℤ) :
    Except PyExn Foreign :=
  if p.type = ⟨"void", 0⟩ then .error .assertionError
  else
    match (if p.type.contents = "char" then encodeAscii value
           else .ok value : Except PyExn PyVal) with
    | .error x => .error x
    | .ok value2 =>
      if p.type.pointer_level = 0 then
        if primitiveOk p.type.contents then .ok (.scalar value2)
        else .error .unsupportedTypeError
      else if p.type.pointer_level = 1 then
        match length with
        | none => .error .assertionError
        | some len =>
          if p.type.contents = "char" then
            match value2 with
            | .vstr s =>
              if p.is_output then
                if (s.length : ℤ) > len + 1 then .error .valueError
                else .ok (.strBuf s (len + 1))
              else .ok (.strPtr s)
            | _ => .error .typeError
          else
            match value2 with
            | .vlist l =>
              if primitiveOk p.type.contents then
                if len < 0 then .error .valueError
                else if (l.length : ℤ) > len then .error .typeError
                else .ok (.farr l len)
              else .error .unsupportedTypeError
            | _ => .error .typeError
      else .error .unsupportedTypeError

/-- Python `len` on the array-ish values. -/
def pyLen : PyVal → Option ℤ
  | .vstr s => some s.length
  | .vlist l => some l.length
  | _ => none

/-- The embedded `Parameter.get_size(value, values)`.  With a native value (`with_val`):
evaluate the foreign size, but a `ConstSize` yields `len(value)`, and other
sizes assert the evaluated size covers the value.  Without one
(`without_val`): evaluate the initial size; for `ConstSize`/`ExprSize`
construct `randomiser.Randomiser()` — which reseeds the global RNG from
fresh entropy — and draw `random_int(max_val=size)`; otherwise return the
size.  A parameter with no size spec hits `None.evaluate`, an
`AttributeError`. -/
def ParameterL.get_size (p : ParameterL) (value : Option PyVal)
    (values : Bindings) : PyM ℤ :=
  match p.size with
  | none => throwExn .attributeError
  | some sz =>
    match value with
    | some v =>
      liftExcept (sz.evaluate values false) >>= fun size =>
        match sz with
        | .constSize _ _ => liftOpt (pyLen v) .typeError
        | _ =>
          liftOpt (pyLen v) .typeError >>= fun n =>
            if size ≥ n then pure size else throwExn .assertionError
    | none =>
      liftExcept (sz.evaluate values true) >>= fun size =>
        match sz with
        | .constSize _ _ =>
          doSeed none >>= fun _ => random_int none (some size)
        | .exprSize _ _ _ =>
          doSeed none >>= fun _ => random_int none (some size)
        | _ => pure size

/-- The embedded `runner.Function`: name, parameters, return type, the global
constraints, and the compiled implementation.  `impl` stands for the loaded
native symbol together with the post-call unpacking of the output
parameters: it maps an input binding to the return value and the output
mapping, or to `none` when the foreign call raises (re-signalled as
`FunctionRunError`). -/
structure FunctionL where
  name : String
  parameters : List ParameterL
  rtype : CType
  globals : List GlobalConstraint
  impl : Bindings → Option (PyVal × Bindings)

/-- Lazy `all` over the parameter-constraint generator expression in
`Function.satisfied`. -/
def allConstraints : List ParamConstraint → Bindings → Except PyExn Bool
  | [], _ => .ok true
  | c :: cs, b =>
    match c.satisfied b with
    | .error x => .error x
    | .ok true => allConstraints cs b
    | .ok false => .ok false

/-- The embedded `Function.satisfied(inputs)`: vacuously true with no constraints at all;
otherwise `all(global predicates) and all(parameter constraints)`, with the
`and` short-circuiting before the parameter constraints when a global
predicate is false. -/
def FunctionL.satisfied (f : FunctionL) (inputs : Bindings) :
    Except PyExn Bool :=
  if f.globals.isEmpty ∧ f.parameters.all (fun p => p.constraints.isEmpty)
  then .ok true
  else if f.globals.all (fun g => g.predicate inputs) then
    allConstraints (f.parameters.map ParameterL.constraints).flatten inputs
  else .ok false

/-- The embedded `Function.safe_parameters`: scalars first, then arrays, each in declared
order. -/
def FunctionL.safe_parameters (f : FunctionL) : List ParameterL :=
  f.parameters.filter (fun p => ¬ p.is_array) ++
    f.parameters.filter (fun p => p.is_array)

/-- The `gen` thunk `Generator.random` dispatches on the primitive. -/
def genPrim (prim : String) : PyM PyVal :=
  if prim = "int" then random_int none none >>= fun n => pure (.vint n)
  else if prim = "float" then
    random_float none none >>= fun q => pure (.vfloat (.fin q))
  else if prim = "double" then
    random_double none none >>= fun q => pure (.vfloat (.fin q))
  else if prim = "char" then random_char none >>= fun c => pure (.vstr ⟨[c]⟩)
  else if prim = "bool" then random_bool >>= fun b => pure (.vbool b)
  else throwExn .unsupportedTypeError

/-- The embedded `Generator.random(parameter, current)`: pick the primitive generator
(unsupported primitives raise before anything else); scalars draw one value;
arrays resolve their size through `get_size(None, current)` and draw that
many elements, char arrays joining into a string.  (The source also stores a
scalar's value into `current`, which aliases the `inputs` dict
`generate_input` writes the same value to; the binding is modelled once, at
`generate_input`.) -/
def Generator.random (p : ParameterL) (current : Bindings) : PyM PyVal :=
  if p.type.contents ≠ "int" ∧ p.type.contents ≠ "float" ∧
      p.type.contents ≠ "double" ∧ p.type.contents ≠ "char" ∧
      p.type.contents ≠ "bool" then
    throwExn .unsupportedTypeError
  else if ¬ p.is_array then genPrim p.type.contents
  else
    p.get_size none current >>= fun size =>
      if p.type.contents = "char" then
        random_array size (random_char none) >>= fun cs =>
          pure (.vstr ⟨cs⟩)
      else
        random_array size (genPrim p.type.contents) >>= fun vs =>
          pure (.vlist vs)

/-- The loop of `Generator.generate_input`: bind each parameter, in safe
order, to a fresh random value, each draw seeing the bindings made so
far. -/
def generateInputGo : List ParameterL → Bindings → PyM Bindings
  | [], acc => pure acc
  | p :: ps, acc =>
    Generator.random p acc >>= fun v =>
      generateInputGo ps (acc ++ [(p.name, v)])

/-- The embedded `Generator.generate_input`. -/
def Generator.generate_input (f : FunctionL) : PyM Bindings :=
  generateInputGo f.safe_parameters []

/-- The `setup_arg` pass of `Function.run`: look each declared parameter up
in the inputs, resolve the foreign size for arrays, and pack; any exception
in this pass propagates (only the foreign call itself is wrapped in
`try`). -/
def setupArgs : List ParameterL → Bindings → PyM Unit
  | [], _ => pure ()
  | p :: ps, params =>
    (match lookupB p.name params with
      | none => throwExn .keyError
      | some v =>
        (if p.is_array then
          p.get_size (some v) params >>= fun sz =>
            liftExcept (p.pack v (some sz))
        else liftExcept (p.pack v none)) >>= fun _ => pure ()) >>= fun _ =>
      setupArgs ps params

/-- The embedded `Function.run(params)` fused with the `Function.outputs()` read that
always follows it: marshal the arguments, invoke the native symbol, and
surface the return value with the output-parameter mapping; a crash in the
call is a `FunctionRunError`. -/
def FunctionL.run (f : FunctionL) (params : Bindings) :
    PyM (PyVal × Bindings) :=
  setupArgs f.parameters params >>= fun _ =>
    match f.impl params with
    | some r => pure r
    | none => throwExn .functionRunError

/-- The embedded `Generator.generate_single`: draw a full input binding, reject it
(`None`) unless `satisfied`, otherwise run the reference and build the
example. -/
def Generator.generate_single (f : FunctionL) : PyM (Option ExampleInstance) :=
  Generator.generate_input f >>= fun inputs =>
  liftExcept (f.satisfied inputs) >>= fun sat =>
  if sat then
    f.run inputs >>= fun vo => pure (some ⟨inputs, vo.1, vo.2⟩)
  else pure none

/-- The `while fails < max_fails and len(examples) < n` loop of
`Generator.generate`, fuel-indexed: an accepted trial appends its example
and *decrements* the fail counter, a rejected trial increments it. -/
def generateLoop (f : FunctionL) (n : Nat) :
    Nat → List ExampleInstance → ℤ → PyM (List ExampleInstance)
  | 0, _, _ => throwExn .fuelOut
  | fuel + 1, examples, fails =>
    if fails < (n : ℤ) ∧ examples.length < n then
      Generator.generate_single f >>= fun ex? =>
        match ex? with
        | some ex => generateLoop f n fuel (examples ++ [ex]) (fails - 1)
        | none => generateLoop f n fuel examples (fails + 1)
    else pure examples

/-- The embedded `Generator.generate(n)`: `assert n > 0`, run the loop from an empty
batch with `fails = 0` and `max_fails = n`, and catch `FunctionRunError` by
logging and returning the empty list.  Fuel `3n + 1` suffices: every
iteration strictly decreases `2(n - len) + (n - fails)`. -/
def Generator.generate (f : FunctionL) (n : Nat) :
    PyM (List ExampleInstance) := fun env =>
  if n = 0 then .exn .assertionError env
  else
    match generateLoop f n (3 * n + 1) [] 0 env with
    | .ok l e => .ok l e
    | .exn x e => if x = .functionRunError then .ok [] e else .exn x e

/-- A freshly constructed `Generator` run on a function:
`Generator.__init__` seeds the global RNG with the fixed seed 0, then
`generate(n)`. -/
def runGenerator (f : FunctionL) (n : Nat) : PyM (List ExampleInstance) :=
  doSeed (some 0) >>= fun _ => Generator.generate f n

/-- The embedded `generateLoop` instrumented with a count of rejected trials (identical
control flow; the projection lemma below shows it refines `generateLoop`). -/
def generateLoopC (f : FunctionL) (n : Nat) :
    Nat → List ExampleInstance → ℤ → Nat → PyM (List ExampleInstance × Nat)
  | 0, _, _, _ => throwExn .fuelOut
  | fuel + 1, examples, fails, rejected =>
    if fails < (n : ℤ) ∧ examples.length < n then
      Generator.generate_single f >>= fun ex? =>
        match ex? with
        | some ex =>
          generateLoopC f n fuel (examples ++ [ex]) (fails - 1) rejected
        | none =>
          generateLoopC f n fuel examples (fails + 1) (rejected + 1)
    else pure (examples, rejected)

/-- A fresh generator's seeded loop with the rejection count exposed (the
`except` wrapper is irrelevant to the runs this is used on, which raise
nothing). -/
def runGeneratorC (f : FunctionL) (n : Nat) :
    PyM (List ExampleInstance × Nat) :=
  doSeed (some 0) >>= fun _ => generateLoopC f n (3 * n + 1) [] 0 0

/-- What `runner.run_safe` observes of its worker after `p.join(2)`: the
worker exited with some status (having queued a result or not), or is still
alive when the timeout elapsed. -/
inductive WorkerOutcome where
  | exited (code : ℤ) (queued : Option (PyVal × Bindings))
  | alive

/-- The embedded `runner.run_safe` after the join: on exit status 0, `p.close()` then
`q.get_nowait()` (an empty queue raises `queue.Empty`); otherwise
`p.close()` — which raises `ValueError` when the process is still running
(CPython `Process.close`), so only the dead non-zero case reaches the
warning log and the `None` return. -/
def run_safe (w : WorkerOutcome) :
    Except PyExn (Option (PyVal × Bindings)) :=
  match w with
  | .exited code queued =>
    if code = 0 then
      match queued with
      | some r => .ok (some r)
      | none => .error .emptyError
    else .ok none
  | .alive => .error .valueError

/-- Map a function over the value of a result. -/
def mapMRes (g : α → β) : MRes α → MRes β
  | .ok a e => .ok (g a) e
  | .exn x e => .exn x e

/-- The value a computation produces on an environment, forgetting the final
state. -/
def runVal (m : PyM α) (env : PyEnv) : Option α :=
  match m env with
  | .ok a _ => some a
  | .exn _ _ => none

/-- The exception a computation raises on an environment, if any. -/
def runExn (m : PyM α) (env : PyEnv) : Option PyExn :=
  match m env with
  | .ok _ _ => none
  | .exn x _ => some x

/-- An operating-system entropy source that always yields `k`. -/
def entConst (k : Nat) : Nat → Nat → Nat := fun _ _ => k

/-- A runtime state whose initial stream is zero and whose entropy source
always yields 0. -/
def env0 : PyEnv := ⟨⟨fun _ => 0, 0⟩, entConst 0, 0⟩

/-- The runtime state right after `Generator.__init__` seeded the global
RNG with 0, starting from `env0`. -/
def seeded0 : PyEnv := ⟨⟨mtStream 0, 0⟩, entConst 0, 0⟩

/-- A runtime state whose entropy source always yields 10. -/
def envTen : PyEnv := ⟨⟨fun _ => 0, 0⟩, entConst 10, 0⟩

/-- A runtime state whose entropy source always yields 1. -/
def envOne : PyEnv := ⟨⟨fun _ => 0, 0⟩, entConst 1, 0⟩

/-- A scalar `int` parameter named `n` carrying the given constraints. -/
def intParam (constraints : List ParamConstraint) : ParameterL :=
  ⟨"n", ⟨"int", 0⟩, false, constraints, none⟩

/-- A reference whose compiled implementation returns 7 on the input
`n = 0` and crashes (raises through the foreign call) on every other
input. -/
def crashAfterFirst : FunctionL :=
  ⟨"crashy", [intParam []], ⟨"int", 0⟩, [],
    fun b =>
      match lookupB "n" b with
      | some (.vint 0) => some (.vint 7, [])
      | _ => none⟩

/-- A function accepting only odd `n`, through a global constraint. -/
def oddOnly : FunctionL :=
  ⟨"odd_only", [intParam []],
    ⟨"int", 0⟩,
    [⟨fun b =>
      match lookupB "n" b with
      | some (.vint k) => k % 2 == 1
      | _ => false⟩],
    fun _ => some (.vint 0, [])⟩

/-- A function whose `n` carries `n >= 1` and `n <= 5`. -/
def rangedF : FunctionL :=
  ⟨"ranged", [intParam [⟨"n", .ge, 1⟩, ⟨"n", .le, 5⟩]], ⟨"int", 0⟩, [],
    fun _ => some (.vint 0, [])⟩

/-- The embedded `rangedF` with the additional `n >= 10`, an empty range. -/
def emptyRangeF : FunctionL :=
  ⟨"empty_range",
    [intParam [⟨"n", .ge, 1⟩, ⟨"n", .le, 5⟩, ⟨"n", .ge, 10⟩]],
    ⟨"int", 0⟩, [], fun _ => some (.vint 0, [])⟩

/-- A function with one unconstrained `int` parameter. -/
def plainF : FunctionL :=
  ⟨"plain", [intParam []], ⟨"int", 0⟩, [], fun _ => some (.vint 0, [])⟩

/-- The output char-array parameter `s` with `ConstSize(s, 10)` of the
`(char *s) int (char *s)` scenario. -/
def sParam : ParameterL :=
  ⟨"s", ⟨"char", 1⟩, true, [], some (.constSize "s" 10)⟩

/-- A function whose single parameter is an output string with
`ConstSize(s, 2)`. -/
def strFun : FunctionL :=
  ⟨"strfun", [⟨"s", ⟨"char", 1⟩, true, [], some (.constSize "s" 2)⟩],
    ⟨"int", 0⟩, [], fun _ => some (.vint 0, [])⟩

/-- Two results agree up to the entropy source: same value (or same
exception) and the same final global RNG state. -/
def SyncRes : MRes α → MRes α → Prop
  | .ok a e, .ok a2 e2 => a = a2 ∧ e.rng = e2.rng
  | .exn x e, .exn x2 e2 => x = x2 ∧ e.rng = e2.rng
  | _, _ => False

/-- A computation is entropy-independent: started in states with the same
global RNG, it produces the same outcome and leaves the RNG in the same
state, whatever each state's entropy source. -/
def SyncM (m : PyM α) : Prop :=
  ∀ e1 e2 : PyEnv, e1.rng = e2.rng → SyncRes (m e1) (m e2)

/-- Size specs whose `get_size(None, _)` resolution does not construct an
unseeded `Randomiser` (and so does not reseed the global RNG from
entropy). -/
def noReseedSize : Option ParamSize → Prop
  | some (.varSize _ _) => True
  | some (.simpleExprSize _ _) => True
  | _ => False

/-! ### Basic facts about the runtime monad -/

theorem bind_apply (m : PyM α) (f : α → PyM β) (env : PyEnv) :
    (m >>= f) env =
      match m env with
      | .ok a e => f a e
      | .exn x e => .exn x e := rfl

theorem pure_apply (a : α) (env : PyEnv) : (pure a : PyM α) env = .ok a env :=
  rfl

theorem throwExn_apply (x : PyExn) (env : PyEnv) :
    (throwExn x : PyM α) env = .exn x env := rfl

/-!
### C1 — the scalar equality policy of `check_example`

The spec says two scalars compare equal exactly under native equality, with
the single NaN-NaN exception.  The code's fallback is
`math.isnan(expected) == math.isnan(actual)`, which is `True` whenever
*neither* side is NaN — so any two distinct numbers compare equal.
-/

/-- C1: evaluating `check_value` at the spec's probe points.  The claim
requires `expected 1.0` vs `actual 2.0` to fail, but the code passes it
(first conjunct): with both sides non-NaN, `isnan(e) == isnan(a)` is
`False == False`.  The three NaN-related probes behave as claimed. -/
theorem check_value_numeric_collapse :
    check_value (.vfloat (.fin 1)) (.vfloat (.fin 2)) = true ∧
    check_value (.vfloat .nan) (.vfloat .nan) = true ∧
    check_value (.vfloat .nan) (.vfloat (.fin 1)) = false ∧
    check_value (.vfloat (.fin 1)) (.vfloat (.fin 1)) = true :=
  ⟨rfl, rfl, rfl, rfl⟩

/-!
### C2 — round-tripping a batch through the example codec

A scalar `char` value is formatted bare (`str(val)`, no quotes) by
`form_value`, while `parser_for(char, 0)` selects `parse_char`, which
demands a quoted `'c'`.  A batch containing a scalar char therefore never
round-trips: its formed line is dropped on parse.
-/

/-- C2: for the signature `(char c) int ()` and the one-example batch with
`c = 'a'`, `value = 1`, forming yields the line `(a) 1 ()` (no quotes around
the char); `parse_sig` selects `parse_char` for `c` and `parse_int` for the
return; parsing the formed line back yields the empty batch — the example
was silently dropped — which differs from the original batch. -/
theorem form_parse_drops_scalar_char :
    exampleForm ⟨[("c", .vstr "a")], .vint 1, []⟩
        [("c", ⟨"char", 0⟩)] ⟨"int", 0⟩ [] = "(a) 1 ()" ∧
    parser_forT ⟨"char", 0⟩ = some parse_char ∧
    parser_forT ⟨"int", 0⟩ = some parse_int ∧
    parse_examples [("c", parse_char)] parse_int [] ["(a) 1 ()".toList] =
      .ok [] ∧
    ([] : List ExampleInstance) ≠ [⟨[("c", .vstr "a")], .vint 1, []⟩] :=
  ⟨rfl, rfl, rfl, rfl, fun h => List.noConfusion h⟩

/-!
### C7 — resilience of the batch parser

Every value parser signals a failed match with `return None` — except
`parse_real`, whose failure arm reads `raise None`, which in Python 3 raises
`TypeError` ("exceptions must derive from BaseException").  A malformed
float field therefore aborts the whole `parse` call instead of dropping the
line.
-/

/-- C7: with the signature `(float x) int ()` (whose field parsers are
`parse_real` and `parse_int`), the malformed instance line `(abc) 1 ()`
raises out of `parse_examples` instead of being dropped; the same line under
an `int` field parser is dropped silently, as the claim describes. -/
theorem parse_examples_raises_on_bad_real :
    parser_forT ⟨"float", 0⟩ = some parse_real ∧
    parse_examples [("x", parse_real)] parse_int [] ["(abc) 1 ()".toList] =
      .exn ∧
    parse_examples [("x", parse_int)] parse_int [] ["(abc) 1 ()".toList] =
      .ok [] :=
  ⟨rfl, rfl, rfl⟩

/-!
### C4 — `run_safe` and its worker

`run_safe` returns the queued result on a zero exit and `None` on a
non-zero exit, but on the timeout path (worker still alive) it calls
`p.close()` on a running process, which raises `ValueError` before the
warning is logged — so it does not return "no result" there.
-/

/-- C4 counterexample: when the worker is still alive after the 2-second
join, `run_safe` raises `ValueError` (from `Process.close`), and in
particular does not return `None` as the claim states. -/
theorem run_safe_alive_raises :
    run_safe .alive = .error .valueError ∧
    run_safe .alive ≠ .ok none :=
  ⟨rfl, fun h => Except.noConfusion h⟩

/-- C4 as amended: a worker that exited non-zero yields `.ok none` (warning
logged, no exception); a worker that exited 0 with a queued result yields
that result; a worker still alive after the timeout raises `ValueError`
from `p.close()` instead of returning. -/
theorem run_safe_exit_paths (code : ℤ) (q : Option (PyVal × Bindings)) :
    (code ≠ 0 → run_safe (.exited code q) = .ok none) ∧
    (∀ r, code = 0 → q = some r → run_safe (.exited code q) = .ok (some r)) ∧
    run_safe .alive = .error .valueError := by
  refine ⟨fun h => ?_, fun r h hq => ?_, rfl⟩
  · simp [run_safe, h]
  · subst h; subst hq; simp [run_safe]

/-- Witness for `run_safe_exit_paths` at exit codes 1 and 0. -/
theorem run_safe_exit_paths_witness :
    run_safe (.exited 1 none) = .ok none ∧
    run_safe (.exited 0 (some (.vint 3, []))) = .ok (some (.vint 3, [])) :=
  ⟨(run_safe_exit_paths 1 none).1 (by decide),
    (run_safe_exit_paths 0 (some (.vint 3, []))).2.1 (.vint 3, []) rfl rfl⟩

theorem liftExcept_apply (r : Except PyExn α) (env : PyEnv) :
    (liftExcept r : PyM α) env =
      match r with
      | .ok a => .ok a env
      | .error x => .exn x env := by
  cases r <;> rfl

/-! ### The generation loop -/

/-- An accepted trial passes the constraint check: when `generate_single`
returns an example, its inputs came out of `generate_input` and `satisfied`
returned `True` on them. -/
theorem generate_single_ok_some {f : FunctionL} {env env2 : PyEnv}
    {ex : ExampleInstance}
    (h : Generator.generate_single f env = .ok (some ex) env2) :
    f.satisfied ex.inputs = .ok true ∧
    ∃ e2, Generator.generate_input f env = .ok ex.inputs e2 := by
  unfold Generator.generate_single at h
  rw [bind_apply] at h
  cases hgi : Generator.generate_input f env with
  | exn x e => rw [hgi] at h; exact MRes.noConfusion h
  | ok inputs envm =>
    simp only [hgi] at h
    rw [bind_apply, liftExcept_apply] at h
    cases hs : f.satisfied inputs with
    | error x => simp only [hs] at h; exact MRes.noConfusion h
    | ok sat =>
      simp only [hs] at h
      cases sat with
      | false =>
        rw [if_neg (by simp), pure_apply] at h
        injection h with h1 h2
        exact Option.noConfusion h1
      | true =>
        rw [if_pos rfl, bind_apply] at h
        cases hr : f.run inputs envm with
        | exn x e => rw [hr] at h; exact MRes.noConfusion h
        | ok vo envr =>
          simp only [hr] at h
          rw [pure_apply] at h
          injection h with h1 h2
          injection h1 with h1
          subst h1
          refine ⟨hs, envm, ?_⟩
          simp only []

/-- Provenance through the generation loop: every example in the loop's
output was already in the accumulator or was produced by a successful
`generate_single` run. -/
theorem generateLoop_mem {f : FunctionL} {n : Nat} (fuel : Nat) :
    ∀ {acc : List ExampleInstance} {fails : ℤ} {env : PyEnv}
      {l : List ExampleInstance} {env' : PyEnv},
      generateLoop f n fuel acc fails env = .ok l env' →
      ∀ e ∈ l, e ∈ acc ∨
        ∃ env1 env2, Generator.generate_single f env1 = .ok (some e) env2 := by
  induction fuel with
  | zero =>
    intro acc fails env l env' h e he
    rw [generateLoop, throwExn_apply] at h
    exact MRes.noConfusion h
  | succ fuel ih =>
    intro acc fails env l env' h e he
    rw [generateLoop] at h
    by_cases hc : fails < (n : ℤ) ∧ acc.length < n
    · rw [if_pos hc, bind_apply] at h
      cases hgs : Generator.generate_single f env with
      | exn x e1 => rw [hgs] at h; exact MRes.noConfusion h
      | ok ex? e1 =>
        simp only [hgs] at h
        cases ex? with
        | some ex =>
          rcases ih h e he with hmem | hgen
          · rcases List.mem_append.mp hmem with h1 | h2
            · exact Or.inl h1
            · have : e = ex := List.mem_singleton.mp h2
              subst this
              exact Or.inr ⟨env, e1, hgs⟩
          · exact Or.inr hgen
        | none => exact ih h e he
    · rw [if_neg hc, pure_apply] at h
      injection h with h1 h2
      subst h1
      exact Or.inl he

/-!
### C3 — generated batches satisfy the declared constraints

`generate_single` rejects any input binding on which `satisfied` is not
`True`, so no example in a batch returned by `Generator.generate`
violates a declared constraint.
-/

/-- Every example in a batch a fresh generator returns was produced by a
successful `generate_single` run. -/
theorem runGenerator_mem {f : FunctionL} {n : Nat} {env : PyEnv}
    {l : List ExampleInstance}
    (h : runVal (runGenerator f n) env = some l) :
    ∀ e ∈ l,
      ∃ env1 env2, Generator.generate_single f env1 = .ok (some e) env2 := by
  intro e he
  unfold runVal at h
  cases hrun : runGenerator f n env with
  | exn x e2 => rw [hrun] at h; exact Option.noConfusion h
  | ok l0 env' =>
    rw [hrun] at h
    injection h with h1
    subst h1
    unfold runGenerator at hrun
    rw [bind_apply] at hrun
    simp only [show doSeed (some 0) env =
      MRes.ok () { env with rng := ⟨mtStream 0, 0⟩ } from rfl] at hrun
    unfold Generator.generate at hrun
    by_cases hn : n = 0
    · rw [if_pos hn] at hrun; exact MRes.noConfusion hrun
    · rw [if_neg hn] at hrun
      cases hl : generateLoop f n (3 * n + 1) [] 0
          { env with rng := ⟨mtStream 0, 0⟩ } with
      | ok l1 e1 =>
        simp only [hl] at hrun
        injection hrun with h1 h2
        subst h1
        rcases generateLoop_mem (3 * n + 1) hl e he with hmem | ⟨env1, env2, hgs⟩
        · exact absurd hmem (List.not_mem_nil e)
        · exact ⟨env1, env2, hgs⟩
      | exn x e1 =>
        simp only [hl] at hrun
        by_cases hx : x = .functionRunError
        · rw [if_pos hx] at hrun
          injection hrun with h1 h2
          rw [← h1] at he
          exact absurd he (List.not_mem_nil e)
        · rw [if_neg hx] at hrun; exact MRes.noConfusion hrun

/-- C3: every example in a batch a fresh generator returns has inputs on
which `Function.satisfied` is `True` — `generate_single` rejects any
binding that fails the constraint check before an example is built. -/
theorem generate_batch_satisfies_constraints (f : FunctionL) (n : Nat)
    (env : PyEnv) (l : List ExampleInstance)
    (h : runVal (runGenerator f n) env = some l) :
    ∀ e ∈ l, f.satisfied e.inputs = .ok true := by
  intro e he
  obtain ⟨env1, env2, hgs⟩ := runGenerator_mem h e he
  exact (generate_single_ok_some hgs).1

/-- Witness for `generate_batch_satisfies_constraints`: a fresh generator
over the unconstrained `plainF` asked for one example yields the batch
`[{n: 0} → 0]`, and its inputs satisfy the (vacuous) constraints. -/
theorem generate_batch_satisfies_constraints_witness :
    runVal (runGenerator plainF 1) env0 =
      some [⟨[("n", .vint 0)], .vint 0, []⟩] ∧
    plainF.satisfied [("n", .vint 0)] = .ok true :=
  ⟨rfl,
    generate_batch_satisfies_constraints plainF 1 env0
      [⟨[("n", .vint 0)], .vint 0, []⟩] rfl
      ⟨[("n", .vint 0)], .vint 0, []⟩ (by simp)⟩

/-!
### C5 — a crash during reference execution

`Generator.generate` catches `FunctionRunError`, logs, and returns `[]` —
the *empty* list, not the examples accumulated before the crash (the
`except` arm ignores the local `examples`).
-/

/-- C5 counterexample: over `crashAfterFirst` (reference succeeds on the
first generated input, crashes on the second), asking for 1 example
succeeds with a singleton batch, but asking for 2 returns the empty list —
not the accumulated `[{n: 0} → 7]` the claim requires. -/
theorem generate_crash_discards_accumulated :
    runVal (runGenerator crashAfterFirst 1) env0 =
      some [⟨[("n", .vint 0)], .vint 7, []⟩] ∧
    runVal (runGenerator crashAfterFirst 2) env0 = some [] ∧
    runVal (runGenerator crashAfterFirst 2) env0 ≠
      some [⟨[("n", .vint 0)], .vint 7, []⟩] := by
  refine ⟨rfl, rfl, fun h => ?_⟩
  have h2 : some ([] : List ExampleInstance) =
      some [⟨[("n", .vint 0)], .vint 7, []⟩] := h
  injection h2 with h3
  exact List.noConfusion h3

/-- C5 as amended: when the generation loop raises `FunctionRunError`,
`Generator.generate` stops, does not propagate the exception (indeed it can
never surface a `FunctionRunError`), and returns the *empty* list,
discarding whatever had been accumulated. -/
theorem generate_crash_returns_empty (f : FunctionL) (n : Nat) (env : PyEnv)
    (hn : n ≠ 0)
    (h : runExn (generateLoop f n (3 * n + 1) [] 0) env =
      some .functionRunError) :
    runVal (Generator.generate f n) env = some [] ∧
    ∀ env2 : PyEnv,
      runExn (Generator.generate f n) env2 ≠ some .functionRunError := by
  constructor
  · unfold runExn at h
    unfold runVal Generator.generate
    rw [if_neg hn]
    cases hl : generateLoop f n (3 * n + 1) [] 0 env with
    | ok l e => rw [hl] at h; exact Option.noConfusion h
    | exn x e =>
      simp only [hl] at h ⊢
      injection h with h1
      subst h1
      rw [if_pos rfl]
  · intro env2
    unfold runExn Generator.generate
    by_cases hn2 : n = 0
    · rw [if_pos hn2]
      intro hcontra
      injection hcontra with h1
      exact PyExn.noConfusion h1
    · rw [if_neg hn2]
      cases hl : generateLoop f n (3 * n + 1) [] 0 env2 with
      | ok l e => simp [hl]
      | exn x e =>
        by_cases hx : x = .functionRunError
        · simp [hl, hx]
        · simp only [hl, if_neg hx]
          intro hcontra
          injection hcontra with h1
          exact hx h1

/-- Witness for `generate_crash_returns_empty`: `crashAfterFirst` with
`n = 2` from the seeded state crashes on the second trial, and `generate`
returns the empty batch. -/
theorem generate_crash_returns_empty_witness :
    runVal (Generator.generate crashAfterFirst 2) seeded0 = some [] :=
  (generate_crash_returns_empty crashAfterFirst 2 seeded0
    (by decide) rfl).1

/-!
### C6 — the fail budget

The loop counter `fails` is *decremented* on every accepted trial and
incremented on every rejection, so the loop stops early only when
rejections exceed acceptances by `n` — not after `n` rejections in total.
-/

/-- The instrumented loop projects onto the source loop: forgetting the
rejection counter recovers `generateLoop` exactly. -/
theorem generateLoopC_fst {f : FunctionL} {n : Nat} (fuel : Nat) :
    ∀ (acc : List ExampleInstance) (fails : ℤ) (rej : Nat) (env : PyEnv),
      mapMRes Prod.fst (generateLoopC f n fuel acc fails rej env) =
        generateLoop f n fuel acc fails env := by
  induction fuel with
  | zero => intro acc fails rej env; rfl
  | succ fuel ih =>
    intro acc fails rej env
    rw [generateLoopC, generateLoop]
    by_cases hc : fails < (n : ℤ) ∧ acc.length < n
    · rw [if_pos hc, if_pos hc, bind_apply, bind_apply]
      cases hgs : Generator.generate_single f env with
      | exn x e => simp only [hgs]; rfl
      | ok ex? e =>
        simp only [hgs]
        cases ex? with
        | some ex => exact ih _ _ _ _
        | none => exact ih _ _ _ _
    · rw [if_neg hc, if_neg hc]; rfl

/-- Budget bookkeeping for the loop: starting within budget, the output
batch never exceeds `n` examples, and when the loop stops early (fewer than
`n` examples, no exception) the rejections it consumed equal
`n - fails` plus one per accepted example — for a fresh run, `n` plus the
number of accepted examples, not `n`. -/
theorem generateLoopC_budget {f : FunctionL} {n : Nat} (fuel : Nat) :
    ∀ {acc : List ExampleInstance} {fails : ℤ} {rej : Nat} {env : PyEnv}
      {l : List ExampleInstance} {rej' : Nat} {env' : PyEnv},
      generateLoopC f n fuel acc fails rej env = .ok (l, rej') env' →
      fails ≤ (n : ℤ) → acc.length ≤ n →
      l.length ≤ n ∧
        (l.length < n →
          (rej' : ℤ) - (rej : ℤ) =
            ((n : ℤ) - fails) + ((l.length : ℤ) - (acc.length : ℤ))) := by
  induction fuel with
  | zero =>
    intro acc fails rej env l rej' env' h _ _
    rw [generateLoopC, throwExn_apply] at h
    exact MRes.noConfusion h
  | succ fuel ih =>
    intro acc fails rej env l rej' env' h hf ha
    rw [generateLoopC] at h
    by_cases hc : fails < (n : ℤ) ∧ acc.length < n
    · obtain ⟨hc1, hc2⟩ := hc
      rw [if_pos ⟨hc1, hc2⟩, bind_apply] at h
      cases hgs : Generator.generate_single f env with
      | exn x e => rw [hgs] at h; exact MRes.noConfusion h
      | ok ex? e =>
        simp only [hgs] at h
        cases ex? with
        | some ex =>
          have hstep := ih h (by omega)
            (by simp only [List.length_append, List.length_singleton]; omega)
          rcases hstep with ⟨h1, h2⟩
          refine ⟨h1, fun hlt => ?_⟩
          have h3 := h2 hlt
          simp only [List.length_append, List.length_singleton] at h3
          push_cast at h3 ⊢
          omega
        | none =>
          have hstep := ih h (by omega) ha
          rcases hstep with ⟨h1, h2⟩
          refine ⟨h1, fun hlt => ?_⟩
          have h3 := h2 hlt
          push_cast at h3 ⊢
          omega
    · rw [if_neg hc, pure_apply] at h
      injection h with h1 h2
      have hl : acc = l := congrArg Prod.fst h1
      have hr : rej = rej' := congrArg Prod.snd h1
      subst hl
      subst hr
      refine ⟨ha, fun hlt => ?_⟩
      rcases not_and_or.mp hc with h4 | h4
      · omega
      · exact absurd hlt h4

/-- C6 counterexample: `oddOnly` asked for `n = 2` examples rejects two
trials in the run (the instrumented count is 2 = n) and still returns a
*full* batch of 2 examples — the claim requires termination with fewer than
`n` examples once `n` rejections have occurred. -/
theorem generate_full_batch_after_n_rejections :
    runVal (runGeneratorC oddOnly 2) env0 =
      some ([⟨[("n", .vint 1)], .vint 0, []⟩,
             ⟨[("n", .vint 3)], .vint 0, []⟩], 2) ∧
    ¬ (([⟨[("n", .vint 1)], .vint 0, []⟩,
         ⟨[("n", .vint 3)], .vint 0, []⟩] : List ExampleInstance).length
        < 2) :=
  ⟨rfl, by decide⟩

/-- C6 as amended: the batch never exceeds `n` examples, and the budget is
*net*: when a fresh run stops early with fewer than `n` examples, the
rejections it tolerated number `n` plus one per accepted example (the
`fails` counter is decremented on acceptance), not `n` in total. -/
theorem generate_net_fail_budget (f : FunctionL) (n : Nat) (env : PyEnv) :
    (∀ l, runVal (runGenerator f n) env = some l → l.length ≤ n) ∧
    (∀ l rej, runVal (runGeneratorC f n) env = some (l, rej) →
      l.length < n → (rej : ℤ) = (n : ℤ) + (l.length : ℤ)) := by
  constructor
  · intro l h
    unfold runVal runGenerator at h
    rw [bind_apply] at h
    simp only [show doSeed (some 0) env =
      MRes.ok () { env with rng := ⟨mtStream 0, 0⟩ } from rfl] at h
    unfold Generator.generate at h
    by_cases hn : n = 0
    · rw [if_pos hn] at h; exact Option.noConfusion h
    · rw [if_neg hn] at h
      cases hl : generateLoop f n (3 * n + 1) [] 0
          { env with rng := ⟨mtStream 0, 0⟩ } with
      | ok l1 e1 =>
        simp only [hl] at h
        injection h with h1
        subst h1
        have hproj := generateLoopC_fst (f := f) (n := n) (3 * n + 1)
          [] 0 0 { env with rng := ⟨mtStream 0, 0⟩ }
        cases hC : generateLoopC f n (3 * n + 1) [] 0 0
            { env with rng := ⟨mtStream 0, 0⟩ } with
        | exn x e =>
          rw [hC, hl] at hproj
          exact MRes.noConfusion hproj
        | ok p e =>
          obtain ⟨lC, rejC⟩ := p
          rw [hC, hl] at hproj
          simp only [mapMRes] at hproj
          injection hproj with hp1 hp2
          have hb := generateLoopC_budget (3 * n + 1) hC (by omega)
            (by simp)
          rw [hp1] at hb
          exact hb.1
      | exn x e1 =>
        simp only [hl] at h
        by_cases hx : x = .functionRunError
        · rw [if_pos hx] at h
          injection h with h1
          rw [← h1]
          exact Nat.zero_le n
        · rw [if_neg hx] at h; exact Option.noConfusion h
  · intro l rej h hlt
    unfold runVal runGeneratorC at h
    rw [bind_apply] at h
    simp only [show doSeed (some 0) env =
      MRes.ok () { env with rng := ⟨mtStream 0, 0⟩ } from rfl] at h
    cases hC : generateLoopC f n (3 * n + 1) [] 0 0
        { env with rng := ⟨mtStream 0, 0⟩ } with
    | exn x e => rw [hC] at h; exact Option.noConfusion h
    | ok p e =>
      simp only [hC] at h
      injection h with h1
      subst h1
      have hb := generateLoopC_budget (3 * n + 1) hC (by omega) (by simp)
      have h3 := hb.2 hlt
      push_cast [List.length_nil] at h3 ⊢
      omega

/-- Witness for `generate_net_fail_budget`: on `emptyRangeF` (an
unsatisfiable constraint set) with `n = 1`, the run stops with the empty
batch after exactly `1 = n + 0` rejections. -/
theorem generate_net_fail_budget_witness :
    runVal (runGeneratorC emptyRangeF 1) env0 = some ([], 1) ∧
    ((1 : Nat) : ℤ) =
      ((1 : Nat) : ℤ) + ((([] : List ExampleInstance).length : Nat) : ℤ) :=
  ⟨rfl,
    (generate_net_fail_budget emptyRangeF 1 env0).2 [] 1 rfl (by decide)⟩

/-!
### C8 — range constraints on an `int` parameter

Constraint satisfaction comes only from the accept/reject check in
`generate_single` (the draw itself ignores the constraints — the `TODO` at
`Generator.random`), so accepted values do lie in `[1,5]`; but an
unsatisfiable constraint set never reaches `Randomiser.random_int`'s
`ConstraintError`: every trial just fails the check and the generator
returns an empty batch.
-/

/-- The embedded `generate_input` over `rangedF`'s single scalar `int` parameter draws
exactly one value from the global stream, in the default range. -/
theorem generate_input_rangedF (env : PyEnv) :
    Generator.generate_input rangedF env =
      .ok [("n", .vint (0 + (env.rng.stream env.rng.pos : ℤ) % 11))]
        { env with rng := { env.rng with pos := env.rng.pos + 1 } } := rfl

/-- The embedded `rangedF.satisfied` on a bound integer decides exactly the conjunction
of its two range constraints. -/
theorem rangedF_satisfied_eq (v : ℤ) :
    rangedF.satisfied [("n", .vint v)] =
      .ok (decide ((1 : ℚ) ≤ (v : ℚ)) && decide ((v : ℚ) ≤ 5)) := by
  by_cases h1 : (1 : ℚ) ≤ (v : ℚ) <;>
    by_cases h2 : (v : ℚ) ≤ 5 <;>
      simp [FunctionL.satisfied, rangedF, intParam, allConstraints,
        ParamConstraint.satisfied, lookupB, pyCompareInt, pyNum,
        ge_iff_le, h1, h2]

/-- A binding accepted by `rangedF.satisfied` lies in `[1, 5]`. -/
theorem rangedF_satisfied_bounds {v : ℤ}
    (h : rangedF.satisfied [("n", .vint v)] = .ok true) :
    1 ≤ v ∧ v ≤ 5 := by
  rw [rangedF_satisfied_eq] at h
  injection h with h1
  rw [Bool.and_eq_true, decide_eq_true_eq, decide_eq_true_eq] at h1
  exact ⟨by exact_mod_cast h1.1, by exact_mod_cast h1.2⟩

/-- C8 as amended, first half: with `n >= 1` and `n <= 5` declared, every
example a fresh generator returns binds `n` to an integer in `[1, 5]` —
enforced by rejection in `generate_single`, not by a constrained draw. -/
theorem generate_int_constraint_range (n : Nat) (env : PyEnv)
    (l : List ExampleInstance)
    (h : runVal (runGenerator rangedF n) env = some l) :
    ∀ e ∈ l, ∃ v : ℤ, e.inputs = [("n", .vint v)] ∧ 1 ≤ v ∧ v ≤ 5 := by
  intro e he
  obtain ⟨env1, env2, hgs⟩ := runGenerator_mem h e he
  obtain ⟨hsat, e2, hgi⟩ := generate_single_ok_some hgs
  rw [generate_input_rangedF] at hgi
  injection hgi with h1 h2
  refine ⟨0 + (env1.rng.stream env1.rng.pos : ℤ) % 11, h1.symm, ?_⟩
  rw [h1.symm] at hsat
  exact rangedF_satisfied_bounds hsat

/-- Witness for `generate_int_constraint_range`: the fresh run over
`rangedF` with `n = 2` rejects the draw 0, then accepts 1 and 2, both in
`[1, 5]`. -/
theorem generate_int_constraint_range_witness :
    runVal (runGenerator rangedF 2) env0 =
      some [⟨[("n", .vint 1)], .vint 0, []⟩,
            ⟨[("n", .vint 2)], .vint 0, []⟩] ∧
    (∃ v : ℤ,
      (⟨[("n", .vint 1)], .vint 0, []⟩ : ExampleInstance).inputs =
        [("n", .vint v)] ∧ 1 ≤ v ∧ v ≤ 5) :=
  ⟨rfl,
    generate_int_constraint_range 2 env0
      [⟨[("n", .vint 1)], .vint 0, []⟩, ⟨[("n", .vint 2)], .vint 0, []⟩]
      rfl ⟨[("n", .vint 1)], .vint 0, []⟩ (by simp)⟩

/-- C8 counterexample, second half of the claim: adding `n >= 10` to the
prior `n <= 5` (an empty range) does *not* make the generator raise
`ConstraintError` — the run raises nothing and returns the empty batch,
because `Generator.random` never passes constraint bounds to
`Randomiser.random_int` (the `TODO` in the source). -/
theorem generate_empty_range_no_error :
    runVal (runGenerator emptyRangeF 1) env0 = some [] ∧
    runExn (runGenerator emptyRangeF 1) env0 = none ∧
    runExn (runGenerator emptyRangeF 1) env0 ≠ some .constraintError := by
  refine ⟨rfl, rfl, fun h => ?_⟩
  have h2 : (none : Option PyExn) = some .constraintError := h
  exact Option.noConfusion h2

/-!
### C9 — `ConstSize(s, 10)` output strings

`random.randint(0, size)` is inclusive on both ends, so the generated
length ranges over `[0, 10]`, not `[0, 10)`; and `get_size` with a native
value in hand returns `len(value)` for a `ConstSize`, so the output buffer
is sized `len(s) + 1`, which is 11 only when the generated string has the
maximal length 10.
-/

/-- The embedded `Randomiser.random_int` only returns values inside its (inclusive)
range. -/
theorem random_int_bounds {mn mx : Option ℤ} {env : PyEnv} {v : ℤ}
    {e : PyEnv} (h : random_int mn mx env = .ok v e) :
    mn.getD 0 ≤ v ∧ v ≤ mx.getD 10 := by
  unfold random_int at h
  by_cases hb : mn.getD 0 > mx.getD 10
  · rw [if_pos hb, throwExn_apply] at h; exact MRes.noConfusion h
  · rw [if_neg hb, bind_apply] at h
    simp only [show rngDraw env =
      MRes.ok (env.rng.stream env.rng.pos)
        { env with rng := ⟨env.rng.stream, env.rng.pos + 1⟩ } from rfl] at h
    rw [pure_apply] at h
    injection h with h1 h2
    subst h1
    have hmod1 : 0 ≤ ((env.rng.stream env.rng.pos : ℤ)) %
        (mx.getD 10 - mn.getD 0 + 1) := Int.emod_nonneg _ (by omega)
    have hmod2 : ((env.rng.stream env.rng.pos : ℤ)) %
        (mx.getD 10 - mn.getD 0 + 1) < (mx.getD 10 - mn.getD 0 + 1) :=
      Int.emod_lt_of_pos _ (by omega)
    omega

/-- A successful `mreplicate` run produced exactly `n` elements. -/
theorem mreplicate_length {g : PyM α} :
    ∀ {n : Nat} {env : PyEnv} {l : List α} {e : PyEnv},
      mreplicate n g env = .ok l e → l.length = n := by
  intro n
  induction n with
  | zero =>
    intro env l e h
    rw [mreplicate, pure_apply] at h
    injection h with h1 h2
    rw [← h1]
    rfl
  | succ k ih =>
    intro env l e h
    rw [mreplicate, bind_apply] at h
    cases hg : g env with
    | exn x e1 => rw [hg] at h; exact MRes.noConfusion h
    | ok x e1 =>
      simp only [hg, bind_apply] at h
      cases hm : mreplicate k g e1 with
      | exn y e2 => rw [hm] at h; exact MRes.noConfusion h
      | ok xs e2 =>
        simp only [hm, pure_apply] at h
        injection h with h1 h2
        rw [← h1]
        simp [ih hm]

/-- The size resolved for `sParam` at generation time (no native value yet)
lies in the inclusive range `[0, 10]`. -/
theorem sParam_get_size_none_bounds {env : PyEnv} {L : ℤ} {e2 : PyEnv}
    (h : sParam.get_size none [] env = .ok L e2) : 0 ≤ L ∧ L ≤ 10 := by
  have h2 : (doSeed none >>= fun _ => random_int none (some 10) : PyM ℤ)
      env = .ok L e2 := h
  rw [bind_apply] at h2
  simp only [show doSeed none env =
    MRes.ok () { env with rng := ⟨env.entropy env.entUsed, 0⟩,
                          entUsed := env.entUsed + 1 } from rfl] at h2
  have := random_int_bounds h2
  simpa using this

/-- C9 as amended: the generated native string for `sParam` has length in
the inclusive `[0, 10]`; with the value in hand, `get_size` resolves to
`len(value)`; and the output buffer packed for it has capacity
`length + 1` — so 11 only at the maximal generated length. -/
theorem const_size_string_gen_and_pack (env : PyEnv) :
    (∀ v e2, Generator.random sParam [] env = .ok v e2 →
      ∃ s : String, v = .vstr s ∧ s.length ≤ 10) ∧
    (∀ (s : String) (values : Bindings) (L : ℤ) (e2 : PyEnv),
      sParam.get_size (some (.vstr s)) values env = .ok L e2 →
      L = (s.length : ℤ)) ∧
    (∀ (s : String) (L : ℤ) (fv : Foreign),
      sParam.pack (.vstr s) (some L) = .ok fv →
      fv = .strBuf s (L + 1)) := by
  refine ⟨fun v e2 h => ?_, fun s values L e2 h => ?_, fun s L fv h => ?_⟩
  · have h2 : (sParam.get_size none [] >>= fun size =>
        random_array size (random_char none) >>= fun cs =>
          pure (.vstr ⟨cs⟩) : PyM PyVal) env = .ok v e2 := h
    rw [bind_apply] at h2
    cases hgs : sParam.get_size none [] env with
    | exn x e1 => rw [hgs] at h2; exact MRes.noConfusion h2
    | ok size e1 =>
      obtain ⟨hs0, hs10⟩ := sParam_get_size_none_bounds hgs
      simp only [hgs, bind_apply] at h2
      unfold random_array at h2
      rw [if_neg (by omega)] at h2
      cases hra : mreplicate size.toNat (random_char none) e1 with
      | exn x e3 => rw [hra] at h2; exact MRes.noConfusion h2
      | ok cs e3 =>
        simp only [hra, pure_apply] at h2
        injection h2 with h1 h2
        refine ⟨⟨cs⟩, h1.symm, ?_⟩
        have hlen := mreplicate_length hra
        show cs.length ≤ 10
        omega
  · have h2 : (pure ((s.length : ℤ)) : PyM ℤ) env = .ok L e2 := h
    rw [pure_apply] at h2
    injection h2 with h1 h2
    exact h1.symm
  · have hstep : sParam.pack (.vstr s) (some L) =
        match encodeAscii (.vstr s) with
        | .error x => .error x
        | .ok v2 =>
          match v2 with
          | .vstr t =>
            if (t.length : ℤ) > L + 1 then .error .valueError
            else .ok (.strBuf t (L + 1))
          | _ => .error .typeError := rfl
    by_cases hA : ∀ x ∈ s.data, x.toNat < 128
    · have hE : encodeAscii (.vstr s) = .ok (.vstr s) := by
        simp only [encodeAscii]
        rw [if_pos (by simpa using hA)]
      rw [hstep, hE] at h
      by_cases hL : (s.length : ℤ) > L + 1
      · have h2 : (if (s.length : ℤ) > L + 1 then
            (Except.error PyExn.valueError : Except PyExn Foreign)
            else .ok (.strBuf s (L + 1))) = .ok fv := h
        rw [if_pos hL] at h2
        exact Except.noConfusion h2
      · have h2 : (if (s.length : ℤ) > L + 1 then
            (Except.error PyExn.valueError : Except PyExn Foreign)
            else .ok (.strBuf s (L + 1))) = .ok fv := h
        rw [if_neg hL] at h2
        injection h2 with h3
        exact h3.symm
    · have hE : encodeAscii (.vstr s) = .error .unicodeEncodeError := by
        simp [encodeAscii, hA]
      rw [hstep, hE] at h
      exact Except.noConfusion h

set_option maxHeartbeats 2000000 in
/-- Witness for `const_size_string_gen_and_pack`: from `envTen` the
resolved size is 10, the generated string is ten `j`s, and packing it with
its resolved length 10 yields a buffer of capacity 11. -/
theorem const_size_string_gen_and_pack_witness :
    (∃ s : String, PyVal.vstr "jjjjjjjjjj" = .vstr s ∧ s.length ≤ 10) ∧
    Foreign.strBuf "jjjjjjjjjj" 11 = .strBuf "jjjjjjjjjj" (10 + 1) :=
  ⟨(const_size_string_gen_and_pack envTen).1 _ _ rfl,
    (const_size_string_gen_and_pack envTen).2.2 "jjjjjjjjjj" 10 _ rfl⟩

/-- C9 counterexample: the generated size can be exactly 10 — outside the
claimed `[0, 10)` — since `randint(0, 10)` is inclusive; and a generated
string of length 7 packs into a buffer of capacity 8, not the claimed 11
(`get_size` with a value returns `len(value)` for a `ConstSize`). -/
theorem const_size_string_bounds_actual :
    runVal (sParam.get_size none []) envTen = some 10 ∧
    ¬ ((10 : ℤ) < 10) ∧
    runVal (sParam.get_size (some (.vstr "abcdefg"))
      [("s", .vstr "abcdefg")]) env0 = some 7 ∧
    sParam.pack (.vstr "abcdefg") (some 7) = .ok (.strBuf "abcdefg" 8) ∧
    (8 : ℤ) ≠ 11 :=
  ⟨rfl, by decide, rfl, rfl, by decide⟩

/-!
### C10 — run-to-run determinism of generation

`Generator.__init__` reseeds the global RNG with the fixed seed 0, so the
computation is deterministic *until* something reseeds from entropy — which
`Parameter.get_size` does, by constructing an unseeded `Randomiser()`, for
every `ConstSize`/`ExprSize` array parameter.  Runs over a function with
such a parameter can differ; runs over functions without one cannot.
-/

theorem syncM_pure (a : α) : SyncM (pure a : PyM α) := by
  intro e1 e2 hr
  exact ⟨rfl, hr⟩

theorem syncM_throw (x : PyExn) : SyncM (throwExn x : PyM α) := by
  intro e1 e2 hr
  exact ⟨rfl, hr⟩

theorem syncM_bind {m : PyM α} {f : α → PyM β} (hm : SyncM m)
    (hf : ∀ a, SyncM (f a)) : SyncM (m >>= f) := by
  intro e1 e2 hr
  have h := hm e1 e2 hr
  rw [bind_apply, bind_apply]
  cases hm1 : m e1 with
  | ok a d1 =>
    cases hm2 : m e2 with
    | ok a2 d2 =>
      rw [hm1, hm2] at h
      obtain ⟨ha, hd⟩ := h
      subst ha
      exact hf a d1 d2 hd
    | exn x2 d2 => rw [hm1, hm2] at h; exact h.elim
  | exn x d1 =>
    cases hm2 : m e2 with
    | ok a2 d2 => rw [hm1, hm2] at h; exact h.elim
    | exn x2 d2 =>
      rw [hm1, hm2] at h
      exact h

theorem syncM_ite (c : Prop) [Decidable c] {m1 m2 : PyM α} (h1 : SyncM m1)
    (h2 : SyncM m2) : SyncM (if c then m1 else m2) := by
  by_cases hc : c
  · rw [if_pos hc]; exact h1
  · rw [if_neg hc]; exact h2

theorem syncM_rngDraw : SyncM rngDraw := by
  intro e1 e2 hr
  refine ⟨by rw [hr], ?_⟩
  show RngState.mk e1.rng.stream (e1.rng.pos + 1) =
    RngState.mk e2.rng.stream (e2.rng.pos + 1)
  rw [hr]

theorem syncM_seedSome (k : Nat) : SyncM (doSeed (some k)) := by
  intro e1 e2 hr
  exact ⟨rfl, rfl⟩

theorem syncM_liftExcept (r : Except PyExn α) : SyncM (liftExcept r) := by
  cases r with
  | ok a => exact syncM_pure a
  | error x => exact syncM_throw x

theorem syncM_liftOpt (o : Option α) (x : PyExn) : SyncM (liftOpt o x) := by
  cases o with
  | some a => exact syncM_pure a
  | none => exact syncM_throw x

theorem syncM_random_int (mn mx : Option ℤ) : SyncM (random_int mn mx) := by
  unfold random_int
  exact syncM_ite _ (syncM_throw _)
    (syncM_bind syncM_rngDraw fun _ => syncM_pure _)

theorem syncM_randomUnit : SyncM randomUnit :=
  syncM_bind syncM_rngDraw fun _ => syncM_pure _

theorem syncM_random_float (mn mx : Option ℚ) :
    SyncM (random_float mn mx) := by
  unfold random_float
  exact syncM_ite _ (syncM_throw _)
    (syncM_bind syncM_randomUnit fun _ => syncM_pure _)

theorem syncM_random_double (mn mx : Option ℚ) :
    SyncM (random_double mn mx) := by
  unfold random_double
  exact syncM_ite _ (syncM_throw _) (syncM_random_float _ _)

theorem syncM_random_char (alphabet : Option (List Char)) :
    SyncM (random_char alphabet) := by
  unfold random_char
  by_cases hc : (alphabet.getD defaultCharAlphabet).length < 1
  · rw [dif_pos hc]; exact syncM_throw _
  · rw [dif_neg hc]
    exact syncM_bind syncM_rngDraw fun _ => syncM_pure _

theorem syncM_random_bool : SyncM random_bool :=
  syncM_bind syncM_rngDraw fun _ => syncM_pure _

theorem syncM_mreplicate (n : Nat) (g : PyM α) (hg : SyncM g) :
    SyncM (mreplicate n g) := by
  induction n with
  | zero => exact syncM_pure _
  | succ k ih =>
    rw [mreplicate]
    exact syncM_bind hg fun x => syncM_bind ih fun xs => syncM_pure _

theorem syncM_random_array (len : ℤ) (g : PyM α) (hg : SyncM g) :
    SyncM (random_array len g) := by
  unfold random_array
  exact syncM_ite _ (syncM_throw _) (syncM_mreplicate _ _ hg)

theorem syncM_genPrim (prim : String) : SyncM (genPrim prim) := by
  unfold genPrim
  refine syncM_ite _ (syncM_bind (syncM_random_int _ _) fun n => syncM_pure _)
    (syncM_ite _
      (syncM_bind (syncM_random_float _ _) fun q => syncM_pure _)
      (syncM_ite _
        (syncM_bind (syncM_random_double _ _) fun q => syncM_pure _)
        (syncM_ite _
          (syncM_bind (syncM_random_char _) fun c => syncM_pure _)
          (syncM_ite _
            (syncM_bind syncM_random_bool fun b => syncM_pure _)
            (syncM_throw _)))))

theorem syncM_get_size_none {p : ParameterL} (values : Bindings)
    (hp : noReseedSize p.size) : SyncM (p.get_size none values) := by
  cases hsz : p.size with
  | none => rw [hsz] at hp; exact hp.elim
  | some sz =>
    cases sz with
    | constSize a b => rw [hsz] at hp; exact hp.elim
    | exprSize a b c => rw [hsz] at hp; exact hp.elim
    | varSize a b =>
      have hdef : p.get_size none values =
          liftExcept ((ParamSize.varSize a b).evaluate values true) >>=
            fun size => pure size := by
        unfold ParameterL.get_size; rw [hsz]
      rw [hdef]
      exact syncM_bind (syncM_liftExcept _) fun s => syncM_pure _
    | simpleExprSize a b =>
      have hdef : p.get_size none values =
          liftExcept ((ParamSize.simpleExprSize a b).evaluate values true) >>=
            fun size => pure size := by
        unfold ParameterL.get_size; rw [hsz]
      rw [hdef]
      exact syncM_bind (syncM_liftExcept _) fun s => syncM_pure _

theorem syncM_get_size_some (p : ParameterL) (v : PyVal)
    (values : Bindings) : SyncM (p.get_size (some v) values) := by
  cases hsz : p.size with
  | none =>
    have hdef : p.get_size (some v) values = throwExn .attributeError := by
      unfold ParameterL.get_size; rw [hsz]
    rw [hdef]; exact syncM_throw _
  | some sz =>
    cases sz with
    | constSize a b =>
      have hdef : p.get_size (some v) values =
          liftExcept ((ParamSize.constSize a b).evaluate values false) >>=
            fun size => liftOpt (pyLen v) .typeError := by
        unfold ParameterL.get_size; rw [hsz]
      rw [hdef]
      exact syncM_bind (syncM_liftExcept _) fun s => syncM_liftOpt _ _
    | varSize a b =>
      have hdef : p.get_size (some v) values =
          liftExcept ((ParamSize.varSize a b).evaluate values false) >>=
            fun size => liftOpt (pyLen v) .typeError >>= fun n =>
              if size ≥ n then pure size else throwExn .assertionError := by
        unfold ParameterL.get_size; rw [hsz]
      rw [hdef]
      exact syncM_bind (syncM_liftExcept _) fun s =>
        syncM_bind (syncM_liftOpt _ _) fun n =>
          syncM_ite _ (syncM_pure _) (syncM_throw _)
    | exprSize a b c =>
      have hdef : p.get_size (some v) values =
          liftExcept ((ParamSize.exprSize a b c).evaluate values false) >>=
            fun size => liftOpt (pyLen v) .typeError >>= fun n =>
              if size ≥ n then pure size else throwExn .assertionError := by
        unfold ParameterL.get_size; rw [hsz]
      rw [hdef]
      exact syncM_bind (syncM_liftExcept _) fun s =>
        syncM_bind (syncM_liftOpt _ _) fun n =>
          syncM_ite _ (syncM_pure _) (syncM_throw _)
    | simpleExprSize a b =>
      have hdef : p.get_size (some v) values =
          liftExcept ((ParamSize.simpleExprSize a b).evaluate values false) >>=
            fun size => liftOpt (pyLen v) .typeError >>= fun n =>
              if size ≥ n then pure size else throwExn .assertionError := by
        unfold ParameterL.get_size; rw [hsz]
      rw [hdef]
      exact syncM_bind (syncM_liftExcept _) fun s =>
        syncM_bind (syncM_liftOpt _ _) fun n =>
          syncM_ite _ (syncM_pure _) (syncM_throw _)

theorem syncM_Generator_random (p : ParameterL) (current : Bindings)
    (hp : p.is_array = true → noReseedSize p.size) :
    SyncM (Generator.random p current) := by
  unfold Generator.random
  apply syncM_ite _ (syncM_throw _)
  by_cases harr : p.is_array
  · rw [if_neg (by simp [harr])]
    refine syncM_bind (syncM_get_size_none current (hp harr)) fun size => ?_
    exact syncM_ite _
      (syncM_bind (syncM_random_array _ _ (syncM_random_char _))
        fun cs => syncM_pure _)
      (syncM_bind (syncM_random_array _ _ (syncM_genPrim _))
        fun vs => syncM_pure _)
  · rw [if_pos (by simp [harr])]
    exact syncM_genPrim _

theorem syncM_generateInputGo (ps : List ParameterL)
    (hps : ∀ p ∈ ps, p.is_array = true → noReseedSize p.size) :
    ∀ acc : Bindings, SyncM (generateInputGo ps acc) := by
  induction ps with
  | nil => intro acc; exact syncM_pure _
  | cons p ps ih =>
    intro acc
    rw [generateInputGo]
    refine syncM_bind
      (syncM_Generator_random p acc (hps p (List.mem_cons_self p ps))) ?_
    intro v
    exact ih (fun q hq => hps q (List.mem_cons_of_mem p hq)) _

theorem syncM_generate_input (f : FunctionL)
    (hf : ∀ p ∈ f.parameters, p.is_array = true → noReseedSize p.size) :
    SyncM (Generator.generate_input f) := by
  unfold Generator.generate_input
  refine syncM_generateInputGo _ (fun p hp => ?_) []
  unfold FunctionL.safe_parameters at hp
  rcases List.mem_append.mp hp with h | h
  · exact hf p (List.mem_of_mem_filter h)
  · exact hf p (List.mem_of_mem_filter h)

theorem syncM_setupArgs (ps : List ParameterL) (params : Bindings) :
    SyncM (setupArgs ps params) := by
  induction ps with
  | nil => exact syncM_pure _
  | cons p ps ih =>
    rw [setupArgs]
    refine syncM_bind ?_ fun _ => ih
    cases lookupB p.name params with
    | none => exact syncM_throw _
    | some v =>
      refine syncM_bind ?_ fun _ => syncM_pure _
      exact syncM_ite _
        (syncM_bind (syncM_get_size_some p v params)
          fun sz => syncM_liftExcept _)
        (syncM_liftExcept _)

theorem syncM_run (f : FunctionL) (params : Bindings) :
    SyncM (f.run params) := by
  unfold FunctionL.run
  refine syncM_bind (syncM_setupArgs _ _) fun _ => ?_
  cases f.impl params with
  | some r => exact syncM_pure _
  | none => exact syncM_throw _

theorem syncM_generate_single (f : FunctionL)
    (hf : ∀ p ∈ f.parameters, p.is_array = true → noReseedSize p.size) :
    SyncM (Generator.generate_single f) := by
  unfold Generator.generate_single
  refine syncM_bind (syncM_generate_input f hf) fun inputs => ?_
  refine syncM_bind (syncM_liftExcept _) fun sat => ?_
  exact syncM_ite _
    (syncM_bind (syncM_run f inputs) fun vo => syncM_pure _)
    (syncM_pure _)

theorem syncM_generateLoop (f : FunctionL) (n : Nat)
    (hf : ∀ p ∈ f.parameters, p.is_array = true → noReseedSize p.size)
    (fuel : Nat) :
    ∀ (acc : List ExampleInstance) (fails : ℤ),
      SyncM (generateLoop f n fuel acc fails) := by
  induction fuel with
  | zero => intro acc fails; exact syncM_throw _
  | succ fuel ih =>
    intro acc fails
    rw [generateLoop]
    refine syncM_ite _ ?_ (syncM_pure _)
    refine syncM_bind (syncM_generate_single f hf) fun ex? => ?_
    cases ex? with
    | some ex => exact ih _ _
    | none => exact ih _ _

theorem syncM_generate (f : FunctionL) (n : Nat)
    (hf : ∀ p ∈ f.parameters, p.is_array = true → noReseedSize p.size) :
    SyncM (Generator.generate f n) := by
  intro e1 e2 hr
  unfold Generator.generate
  by_cases hn : n = 0
  · rw [if_pos hn, if_pos hn]; exact ⟨rfl, hr⟩
  · rw [if_neg hn, if_neg hn]
    have hs := syncM_generateLoop f n hf (3 * n + 1) [] 0 e1 e2 hr
    cases h1 : generateLoop f n (3 * n + 1) [] 0 e1 with
    | ok l d1 =>
      cases h2 : generateLoop f n (3 * n + 1) [] 0 e2 with
      | ok l2 d2 =>
        rw [h1, h2] at hs
        obtain ⟨hv, hd⟩ := hs
        subst hv
        exact ⟨rfl, hd⟩
      | exn x2 d2 => rw [h1, h2] at hs; exact hs.elim
    | exn x d1 =>
      cases h2 : generateLoop f n (3 * n + 1) [] 0 e2 with
      | ok l2 d2 => rw [h1, h2] at hs; exact hs.elim
      | exn x2 d2 =>
        rw [h1, h2] at hs
        obtain ⟨hx, hd⟩ := hs
        subst hx
        show SyncRes
          (if x = PyExn.functionRunError then MRes.ok [] d1
            else MRes.exn x d1)
          (if x = PyExn.functionRunError then MRes.ok [] d2
            else MRes.exn x d2)
        by_cases hfre : x = .functionRunError
        · rw [if_pos hfre, if_pos hfre]; exact ⟨rfl, hd⟩
        · rw [if_neg hfre, if_neg hfre]; exact ⟨rfl, hd⟩

/-- C10 as amended: generation *is* deterministic for functions none of
whose array parameters carries a `ConstSize`/`ExprSize` size spec — for any
two starting states agreeing on the global RNG (entropy sources free), a
fresh generator produces the same outcome and leaves the RNG identical.
With such a parameter, `get_size` constructs an unseeded `Randomiser()`,
reseeding the global RNG from entropy, and two runs can differ. -/
theorem generate_deterministic_without_reseed (f : FunctionL) (n : Nat)
    (hf : ∀ p ∈ f.parameters, p.is_array = true → noReseedSize p.size) :
    SyncM (runGenerator f n) :=
  syncM_bind (syncM_seedSome 0) fun _ => syncM_generate f n hf

/-- Witness for `generate_deterministic_without_reseed`: over the
scalar-only `plainF`, two runs from RNG-identical states with different
entropy sources are related by `SyncRes`. -/
theorem generate_deterministic_without_reseed_witness :
    SyncRes (runGenerator plainF 1 seeded0)
      (runGenerator plainF 1 { seeded0 with entropy := entConst 5 }) :=
  generate_deterministic_without_reseed plainF 1
    (by
      intro p hp harr
      have hp2 : p = intParam [] := by simpa [plainF] using hp
      rw [hp2] at harr
      exact absurd harr (by decide))
    seeded0 { seeded0 with entropy := entConst 5 } rfl

/-- C10 counterexample: over `strFun` (an output string with
`ConstSize(s, 2)`), two fresh generators started in states that agree on
the global RNG but read different operating-system entropy produce
*different* input bindings — the run is not deterministic across runs, the
unseeded `Randomiser()` in `get_size` having reseeded the global RNG from
entropy. -/
theorem generate_entropy_dependent :
    runVal (runGenerator strFun 1) env0 =
      some [⟨[("s", .vstr "")], .vint 0, []⟩] ∧
    runVal (runGenerator strFun 1) envOne =
      some [⟨[("s", .vstr "a")], .vint 0, []⟩] ∧
    env0.rng = envOne.rng ∧
    runVal (runGenerator strFun 1) env0 ≠
      runVal (runGenerator strFun 1) envOne := by
  refine ⟨rfl, rfl, rfl, fun h => ?_⟩
  have h2 : some [(⟨[("s", .vstr "")], .vint 0, []⟩ : ExampleInstance)] =
      some [⟨[("s", .vstr "a")], .vint 0, []⟩] := h
  simp only [Option.some.injEq, List.cons.injEq] at h2
  obtain ⟨⟨hinp, _, _⟩, _⟩ := ExampleInstance.mk.injEq _ _ _ _ _ _ ▸ h2
  simp at hinp

end CIOEval
